import Mathlib

/-!
Verification of the preflight check orchestration engine
(pkg/util/kubernetes/kubeadm/app/preflight/checks.go).

The Go code is shallowly embedded: each check's `Check()` method becomes a
Lean function from its collaborators' answers to the pair
`(warnings, errors)` of diagnostic message lists, and the orchestrator
`RunChecks` becomes a fold over the list of per-check results, threading
the output sink (list of written strings) and the error buffer (a string).
-/

namespace Preflight

/-- Go `strings.ToLower` as used on ASCII check names: lowercase every
character. In Lean 4.14 a `String` wraps its list of characters, so the
map is stated directly on the data. -/
def toLowerGo (s : String) : String :=
  ⟨s.data.map Char.toLower⟩

/-- `Error` struct: communicates error messages generated by preflight
checks; `Msg` is the accumulated buffer text. -/
structure Error where
  Msg : String
deriving DecidableEq

/-- `(e *Error) Error()`: renders the terminal failure message. -/
def Error.error (e : Error) : String :=
  "[preflight] Some fatal errors occurred:\n" ++ e.Msg ++
    "[preflight] If you know what you are doing, you can make a check non-fatal with `--ignore-preflight-errors=...`"

/-- The observable outcome of one `Checker` in a run: its `Name()` and the
`(warnings, errors)` pair its `Check()` produced (diagnostics carry only
their rendered message). -/
structure Checker where
  name : String
  warnings : List String
  errors : List String
deriving DecidableEq

/-- `setHasItemOrAll`: true if the set has `"all"` or has the lowercase of
`item`. The `sets.String` collaborator is modelled as a list with exact
string membership. -/
def setHasItemOrAll (s : List String) (item : String) : Bool :=
  s.contains "all" || s.contains (toLowerGo item)

/-- One warning line as written to the sink:
`fmt.Sprintf("\t[WARNING %s]: %v\n", name, w)`. -/
def warningLine (name msg : String) : String :=
  "\t[WARNING " ++ name ++ "]: " ++ msg ++ "\n"

/-- One error line as appended to the buffer:
`fmt.Sprintf("\t[ERROR %s]: %v\n", name, i.Error())`. -/
def errorLine (name msg : String) : String :=
  "\t[ERROR " ++ name ++ "]: " ++ msg ++ "\n"

/-- Orchestrator state: the strings written to the output sink `ww` (one
entry per `io.WriteString` call, in order) and the `errsBuffer` contents. -/
structure RunState where
  sink : List String
  errsBuffer : String
deriving DecidableEq

/-- Concatenation of a list of strings (the effect of repeated
`bytes.Buffer.WriteString`). -/
def concatStrs : List String → String
  | [] => ""
  | s :: rest => s ++ concatStrs rest

/-- Loop body of `RunChecks` for one check: apply the ignore-list
downgrade, write surviving warnings to the sink, append surviving errors
to the buffer. -/
def runCheck (ignore : List String) (st : RunState) (c : Checker) : RunState :=
  let name := c.name
  let wes :=
    if setHasItemOrAll ignore name then (c.warnings ++ c.errors, ([] : List String))
    else (c.warnings, c.errors)
  { sink := st.sink ++ wes.1.map (warningLine name)
    errsBuffer := st.errsBuffer ++ concatStrs (wes.2.map (errorLine name)) }

/-- `RunChecks`: run every check in order, then return the aggregate
failure when the error buffer is non-empty. The returned pair carries the
final sink/buffer state and the Go function's `error` result. -/
def RunChecks (checks : List Checker) (ignore : List String) :
    RunState × Option Error :=
  let st := checks.foldl (runCheck ignore) ⟨[], ""⟩
  (st, if st.errsBuffer.length > 0 then some ⟨st.errsBuffer⟩ else none)

/-- The post-downgrade warnings of one check. -/
def effectiveWarnings (ignore : List String) (c : Checker) : List String :=
  if setHasItemOrAll ignore c.name then c.warnings ++ c.errors else c.warnings

/-- The post-downgrade errors of one check. -/
def survivingErrors (ignore : List String) (c : Checker) : List String :=
  if setHasItemOrAll ignore c.name then [] else c.errors

example : RunChecks [⟨"Foo", [], ["boom"]⟩] [] =
    (⟨[], "\t[ERROR Foo]: boom\n"⟩, some ⟨"\t[ERROR Foo]: boom\n"⟩) := by rfl

example : RunChecks [⟨"Foo", [], ["boom"]⟩] ["foo"] =
    (⟨["\t[WARNING Foo]: boom\n"], ""⟩, none) := by rfl

example : RunChecks [⟨"A", ["w1"], []⟩, ⟨"B", [], ["e1", "e2"]⟩] ["all"] =
    (⟨["\t[WARNING A]: w1\n", "\t[WARNING B]: e1\n", "\t[WARNING B]: e2\n"], ""⟩, none) := by rfl

/-- All warning lines of a run, in check order and per-check order. -/
def sinkLines (ignore : List String) (checks : List Checker) : List String :=
  checks.flatMap fun c => (effectiveWarnings ignore c).map (warningLine c.name)

/-- All surviving error lines of a run, in encounter order. -/
def errorLines (ignore : List String) (checks : List Checker) : List String :=
  checks.flatMap fun c => (survivingErrors ignore c).map (errorLine c.name)

theorem concatStrs_append (l₁ l₂ : List String) :
    concatStrs (l₁ ++ l₂) = concatStrs l₁ ++ concatStrs l₂ := by
  induction l₁ with
  | nil => simp [concatStrs]
  | cons a l ih => simp [concatStrs, ih, String.append_assoc]

theorem runCheck_eq (ignore : List String) (st : RunState) (c : Checker) :
    runCheck ignore st c =
      ⟨st.sink ++ (effectiveWarnings ignore c).map (warningLine c.name),
       st.errsBuffer ++ concatStrs ((survivingErrors ignore c).map (errorLine c.name))⟩ := by
  by_cases h : setHasItemOrAll ignore c.name <;>
    simp [runCheck, effectiveWarnings, survivingErrors, h, concatStrs]

theorem foldl_runCheck_eq (ignore : List String) (checks : List Checker)
    (sink0 : List String) (buf0 : String) :
    checks.foldl (runCheck ignore) ⟨sink0, buf0⟩ =
      ⟨sink0 ++ sinkLines ignore checks, buf0 ++ concatStrs (errorLines ignore checks)⟩ := by
  induction checks generalizing sink0 buf0 with
  | nil => simp [sinkLines, errorLines, concatStrs]
  | cons c cs ih =>
    rw [List.foldl_cons, runCheck_eq, ih]
    simp [sinkLines, errorLines, concatStrs_append, List.append_assoc, String.append_assoc]

theorem runChecks_state (checks : List Checker) (ignore : List String) :
    (RunChecks checks ignore).1 =
      ⟨sinkLines ignore checks, concatStrs (errorLines ignore checks)⟩ := by
  show (List.foldl (runCheck ignore) ⟨[], ""⟩ checks) = _
  rw [foldl_runCheck_eq]
  simp

theorem errorLine_length_pos (n m : String) : 0 < (errorLine n m).length := by
  have h8 : ("\t[ERROR " : String).length = 8 := rfl
  simp only [errorLine, String.length_append, h8]
  omega

theorem concatStrs_length_pos (l : List String) (h : ∀ s ∈ l, 0 < s.length) :
    0 < (concatStrs l).length ↔ l ≠ [] := by
  cases l with
  | nil => simp [concatStrs]
  | cons a t =>
    simp only [concatStrs, String.length_append, ne_eq, reduceCtorEq, not_false_iff, iff_true]
    have := h a (List.mem_cons_self a t)
    omega

theorem runChecks_snd_eq (checks : List Checker) (ignore : List String) :
    (RunChecks checks ignore).2 =
      if 0 < (concatStrs (errorLines ignore checks)).length
      then some ⟨concatStrs (errorLines ignore checks)⟩ else none := by
  show (if (List.foldl (runCheck ignore) ⟨[], ""⟩ checks).errsBuffer.length > 0 then _ else _) = _
  rw [foldl_runCheck_eq]
  simp

theorem errorLines_ne_nil_iff (checks : List Checker) (ignore : List String) :
    errorLines ignore checks ≠ [] ↔
      ∃ c, c ∈ checks ∧ setHasItemOrAll ignore c.name = false ∧ c.errors ≠ [] := by
  rw [ne_eq, errorLines, List.flatMap_eq_nil_iff]
  push_neg
  constructor
  · rintro ⟨c, hc, hne⟩
    refine ⟨c, hc, ?_⟩
    by_cases h : setHasItemOrAll ignore c.name
    · simp [survivingErrors, h] at hne
    · refine ⟨by simpa using h, ?_⟩
      simp only [survivingErrors, h, if_false] at hne
      simpa using hne
  · rintro ⟨c, hc, hno, hne⟩
    refine ⟨c, hc, ?_⟩
    simp [survivingErrors, hno, hne]

/-- **C1**: `RunChecks` returns a non-nil error if and only if, after the
ignore-list downgrade is applied, at least one check's errors sequence is
non-empty; with zero surviving errors (any number of warnings) it returns
nil. -/
theorem runChecks_fails_iff_error_survives (checks : List Checker) (ignore : List String) :
    ((RunChecks checks ignore).2.isSome = true) ↔
      ∃ c, c ∈ checks ∧ setHasItemOrAll ignore c.name = false ∧ c.errors ≠ [] := by
  rw [runChecks_snd_eq, ← errorLines_ne_nil_iff checks ignore]
  have hpos : ∀ s ∈ errorLines ignore checks, 0 < s.length := by
    intro s hs
    rw [errorLines, List.mem_flatMap] at hs
    rcases hs with ⟨c, _, hs⟩
    rcases List.mem_map.mp hs with ⟨m, _, rfl⟩
    exact errorLine_length_pos _ _
  rw [← concatStrs_length_pos _ hpos]
  by_cases h : 0 < (concatStrs (errorLines ignore checks)).length <;> simp [h]

/-- Witness for C1 at a concrete run with one surviving error. -/
theorem runChecks_fails_iff_error_survives_witness :
    (RunChecks [⟨"Foo", [], ["boom"]⟩] ["other"]).2.isSome = true :=
  (runChecks_fails_iff_error_survives [⟨"Foo", [], ["boom"]⟩] ["other"]).mpr
    ⟨⟨"Foo", [], ["boom"]⟩, by decide, by decide, by decide⟩

/-- **C2**: per check, if the IgnoreSet has `"all"` or the lowercase of the
check's name, its errors are appended (in order) after its pre-existing
warnings, its errors sequence becomes empty, nothing from it reaches the
error buffer, and each former error is written as a warning line; with
neither token present the errors sequence is unchanged. -/
theorem downgrade_per_check (ignore : List String) (st : RunState) (c : Checker) :
    (setHasItemOrAll ignore c.name =
      (ignore.contains "all" || ignore.contains (toLowerGo c.name)))
    ∧ (setHasItemOrAll ignore c.name = true →
        effectiveWarnings ignore c = c.warnings ++ c.errors ∧
        survivingErrors ignore c = [] ∧
        runCheck ignore st c =
          ⟨st.sink ++ (c.warnings ++ c.errors).map (warningLine c.name), st.errsBuffer⟩)
    ∧ (setHasItemOrAll ignore c.name = false →
        survivingErrors ignore c = c.errors ∧
        runCheck ignore st c =
          ⟨st.sink ++ c.warnings.map (warningLine c.name),
           st.errsBuffer ++ concatStrs (c.errors.map (errorLine c.name))⟩) := by
  refine ⟨rfl, fun h => ?_, fun h => ?_⟩
  · refine ⟨by simp [effectiveWarnings, h], by simp [survivingErrors, h], ?_⟩
    rw [runCheck_eq]
    simp [effectiveWarnings, survivingErrors, h, concatStrs]
  · refine ⟨by simp [survivingErrors, h], ?_⟩
    rw [runCheck_eq]
    simp [effectiveWarnings, survivingErrors, h]

/-- Witness for C2: an ignored check's errors become warning lines and the
buffer is untouched; a non-ignored check's error reaches the buffer. -/
theorem downgrade_per_check_witness :
    runCheck ["all"] ⟨[], ""⟩ ⟨"Foo", ["w"], ["e"]⟩ =
      ⟨["\t[WARNING Foo]: w\n", "\t[WARNING Foo]: e\n"], ""⟩ ∧
    runCheck ["bar"] ⟨[], ""⟩ ⟨"Foo", [], ["e"]⟩ = ⟨[], "\t[ERROR Foo]: e\n"⟩ := by
  constructor
  · have h := (downgrade_per_check ["all"] ⟨[], ""⟩ ⟨"Foo", ["w"], ["e"]⟩).2.1 (by decide)
    rw [h.2.2]; rfl
  · have h := (downgrade_per_check ["bar"] ⟨[], ""⟩ ⟨"Foo", [], ["e"]⟩).2.2 (by decide)
    rw [h.2]; rfl

/-- **C3**: each surviving warning is written to the sink as
`\t[WARNING <name>]: <message>`, in check order and per-check order; each
surviving error is appended to the run's buffer as
`\t[ERROR <name>]: <message>` in encounter order across all checks. -/
theorem runChecks_output_format (checks : List Checker) (ignore : List String) :
    (RunChecks checks ignore).1.sink =
        checks.flatMap (fun c => (effectiveWarnings ignore c).map (warningLine c.name))
    ∧ (RunChecks checks ignore).1.errsBuffer =
        concatStrs (checks.flatMap fun c => (survivingErrors ignore c).map (errorLine c.name))
    ∧ (∀ n m, warningLine n m = "\t[WARNING " ++ n ++ "]: " ++ m ++ "\n")
    ∧ (∀ n m, errorLine n m = "\t[ERROR " ++ n ++ "]: " ++ m ++ "\n") := by
  rw [runChecks_state]
  exact ⟨rfl, rfl, fun _ _ => rfl, fun _ _ => rfl⟩

/-- **C7**: a surviving-error run's returned value renders to the fatal
header line, the full accumulated error-buffer text, then the fixed
ignore-mechanism hint. -/
theorem aggregate_failure_rendering (checks : List Checker) (ignore : List String)
    (err : Error) (h : (RunChecks checks ignore).2 = some err) :
    err.error = "[preflight] Some fatal errors occurred:\n"
      ++ concatStrs (checks.flatMap fun c => (survivingErrors ignore c).map (errorLine c.name))
      ++ "[preflight] If you know what you are doing, you can make a check non-fatal with `--ignore-preflight-errors=...`" := by
  rw [runChecks_snd_eq] at h
  by_cases hp : 0 < (concatStrs (errorLines ignore checks)).length
  · rw [if_pos hp] at h
    cases h
    rfl
  · rw [if_neg hp] at h
    cases h

/-- Witness for C7 at a concrete failing run. -/
theorem aggregate_failure_rendering_witness :
    Error.error ⟨"\t[ERROR Foo]: boom\n"⟩ =
      "[preflight] Some fatal errors occurred:\n\t[ERROR Foo]: boom\n[preflight] If you know what you are doing, you can make a check non-fatal with `--ignore-preflight-errors=...`" := by
  have h := aggregate_failure_rendering [⟨"Foo", [], ["boom"]⟩] []
    ⟨"\t[ERROR Foo]: boom\n"⟩ (by rfl)
  rw [h]
  rfl

/-- **C8**: when every check returns empty warnings and empty errors, the
run returns nil and the sink receives nothing, whatever the IgnoreSet. -/
theorem runChecks_all_clean (checks : List Checker) (ignore : List String)
    (h : ∀ c ∈ checks, c.warnings = [] ∧ c.errors = []) :
    RunChecks checks ignore = (⟨[], ""⟩, none) := by
  have hs : sinkLines ignore checks = [] := by
    rw [sinkLines, List.flatMap_eq_nil_iff]
    intro c hc
    rcases h c hc with ⟨hw, he⟩
    by_cases hig : setHasItemOrAll ignore c.name <;>
      simp [effectiveWarnings, hig, hw, he]
  have he' : errorLines ignore checks = [] := by
    rw [errorLines, List.flatMap_eq_nil_iff]
    intro c hc
    rcases h c hc with ⟨_, he⟩
    by_cases hig : setHasItemOrAll ignore c.name <;>
      simp [survivingErrors, hig, he]
  have h1 := runChecks_state checks ignore
  have h2 := runChecks_snd_eq checks ignore
  rw [hs, he'] at h1
  rw [he'] at h2
  have : (RunChecks checks ignore) = ((RunChecks checks ignore).1, (RunChecks checks ignore).2) := rfl
  rw [this, h1, h2]
  simp [concatStrs]

/-- Witness for C8 at a concrete clean run. -/
theorem runChecks_all_clean_witness :
    RunChecks [⟨"A", [], []⟩, ⟨"B", [], []⟩] ["all"] = (⟨[], ""⟩, none) :=
  runChecks_all_clean [⟨"A", [], []⟩, ⟨"B", [], []⟩] ["all"] (by decide)

theorem toLower_not_isUpper (c : Char) : (Char.toLower c).isUpper = false := by
  unfold Char.toLower
  by_cases h : c.toNat ≥ 65 ∧ c.toNat ≤ 90
  · rw [if_pos h]
    obtain ⟨h1, h2⟩ := h
    generalize hg : Char.toNat c = n at h1 h2
    interval_cases n <;> decide
  · rw [if_neg h]
    simp only [Char.isUpper, Bool.and_eq_false_iff, decide_eq_false_iff_not]
    rw [Char.toNat] at h
    push_neg at h
    by_cases h65 : (65 : UInt32) ≤ c.val
    · right
      intro h90
      rw [UInt32.le_def, BitVec.le_def] at h65 h90
      have e1 : ((65 : UInt32)).toBitVec.toNat = 65 := rfl
      have e2 : ((90 : UInt32)).toBitVec.toNat = 90 := rfl
      have e3 : (c.val).toNat = (c.val).toBitVec.toNat := rfl
      rw [e1] at h65
      rw [e2] at h90
      rw [e3] at h
      exact absurd (h h65) (by omega)
    · left
      exact h65

theorem toLowerGo_ne_of_upper (name t : String) (hc : ∃ c ∈ t.data, c.isUpper = true) :
    toLowerGo name ≠ t := by
  rintro rfl
  rcases hc with ⟨c, hmem, hup⟩
  have : c ∈ name.data.map Char.toLower := hmem
  rcases List.mem_map.mp this with ⟨d, _, rfl⟩
  rw [toLower_not_isUpper d] at hup
  cases hup

theorem ne_all_of_upper (t : String) (hc : ∃ c ∈ t.data, c.isUpper = true) :
    t ≠ "all" := by
  rintro rfl
  revert hc
  decide

/-- **C9**: ignore matching lowercases only the check's name, never the
ignore-set tokens; a token containing an uppercase letter matches no
check (removing it changes nothing), and as a singleton set it downgrades
no check, even one whose lowercase name equals the token's lowercase. -/
theorem ignore_token_with_uppercase_is_inert (s : List String) (t name : String)
    (ht : t ∈ s) (hc : ∃ c ∈ t.data, c.isUpper = true) :
    setHasItemOrAll s name = setHasItemOrAll (s.erase t) name
    ∧ setHasItemOrAll [t] name = false := by
  have hmem : t ∈ s := ht
  clear hmem
  have hall : t ≠ "all" := ne_all_of_upper t hc
  have hlow : toLowerGo name ≠ t := toLowerGo_ne_of_upper name t hc
  constructor
  · simp only [setHasItemOrAll, List.contains, List.elem_eq_mem,
      List.mem_erase_of_ne (Ne.symm hall), List.mem_erase_of_ne hlow]
  · simp [setHasItemOrAll, List.contains, Ne.symm hall, hlow]

/-- Witness for C9: the uppercase token `"PORT-10250"` does not downgrade
the check named `"Port-10250"`, though their lowercases agree. -/
theorem ignore_token_with_uppercase_is_inert_witness :
    setHasItemOrAll ["PORT-10250"] "Port-10250" = false :=
  (ignore_token_with_uppercase_is_inert ["PORT-10250"] "PORT-10250" "Port-10250"
    (by decide) (by decide)).2

/-! ### Individual checks: collaborators and models -/

/-- The init-system collaborator
(`pkg/util/kubernetes/kubeadm/app/util/initsystem`), as consumed by
`ServiceCheck` and `FirewalldCheck`. -/
structure InitSystem where
  serviceExists : String → Bool
  serviceIsEnabled : String → Bool
  serviceIsActive : String → Bool
  enableCommand : String → String

/-- `ServiceCheck` struct. -/
structure ServiceCheck where
  Service : String
  CheckIfActive : Bool
  Label : String

/-- `ServiceCheck.Check`, given the outcome of `initsystem.GetInitSystem()`
(`.error e` when no supported init system is detected). Returns the
`(warnings, errors)` pair. -/
def ServiceCheck.check (sc : ServiceCheck) (getInitSystem : Except String InitSystem) :
    List String × List String :=
  match getInitSystem with
  | .error e => ([e], [])
  | .ok is =>
    if !(is.serviceExists sc.Service) then
      ([sc.Service ++ " service does not exist"], [])
    else
      let warnings :=
        if !(is.serviceIsEnabled sc.Service) then
          [sc.Service ++ " service is not enabled, please run '"
            ++ is.enableCommand sc.Service ++ "'"]
        else []
      let errs :=
        if sc.CheckIfActive && !(is.serviceIsActive sc.Service) then
          [sc.Service ++ " service is not active, please run 'systemctl start "
            ++ sc.Service ++ ".service'"]
        else []
      (warnings, errs)

/-- `%v` rendering of a Go `[]int`, e.g. `[80 443]`. -/
def formatPorts (l : List Int) : String :=
  "[" ++ String.intercalate " " (l.map toString) ++ "]"

/-- `FirewalldCheck` struct. -/
structure FirewalldCheck where
  ports : List Int

/-- `FirewalldCheck.Check`, given the outcome of
`initsystem.GetInitSystem()`. -/
def FirewalldCheck.check (fc : FirewalldCheck) (getInitSystem : Except String InitSystem) :
    List String × List String :=
  match getInitSystem with
  | .error e => ([e], [])
  | .ok is =>
    if !(is.serviceExists "firewalld") then ([], [])
    else if is.serviceIsActive "firewalld" then
      (["firewalld is active, please ensure ports " ++ formatPorts fc.ports
        ++ " are open or your cluster may not function correctly"], [])
    else ([], [])

/-- **C6 counterexample**: when the init system cannot be detected, both
checks return the failure as a *warning* (first component) and an empty
errors sequence — refuting the claim that it lands in the errors
sequence. -/
theorem initsystem_failure_is_warning_counterexample :
    (ServiceCheck.check ⟨"kubelet", true, ""⟩
        (Except.error "no supported init system detected")).2 = []
    ∧ (ServiceCheck.check ⟨"kubelet", true, ""⟩
        (Except.error "no supported init system detected")).1
      = ["no supported init system detected"]
    ∧ (FirewalldCheck.check ⟨[80]⟩
        (Except.error "no supported init system detected")).2 = []
    ∧ (FirewalldCheck.check ⟨[80]⟩
        (Except.error "no supported init system detected")).1
      = ["no supported init system detected"] := by
  refine ⟨rfl, rfl, rfl, rfl⟩

/-- **C6 (amended)**: when `ServiceCheck.Check` or `FirewalldCheck.Check`
cannot detect a supported init system, the inability is reported — not
silently skipped — but as the check's sole *warning*, with an empty errors
sequence. -/
theorem initsystem_failure_reported_as_warning (sc : ServiceCheck)
    (fc : FirewalldCheck) (e : String) :
    ServiceCheck.check sc (Except.error e) = ([e], [])
    ∧ FirewalldCheck.check fc (Except.error e) = ([e], []) :=
  ⟨rfl, rfl⟩

/-- File-system collaborator outcome for `FileContentCheck.Check`:
`os.Open` fails, `io.Copy` fails, or the read succeeds and the limited
reader yields the file's bytes (truncated to the requested limit). -/
inductive FileAccess where
  | noFile
  | unreadable
  | content (bytes : List UInt8)

/-- `%s` rendering of a Go `[]byte`. -/
def bytesToString (l : List UInt8) : String :=
  ⟨l.map fun b => Char.ofNat b.toNat⟩

/-- `FileContentCheck` struct. -/
structure FileContentCheck where
  Path : String
  Content : List UInt8
  Label : String

/-- `FileContentCheck.Check`: opens the file, reads at most
`len(Content)` bytes through `io.LimitReader`, and compares them with
`Content`. -/
def FileContentCheck.check (fcc : FileContentCheck) (f : FileAccess) :
    List String × List String :=
  match f with
  | .noFile => ([], [fcc.Path ++ " does not exist"])
  | .unreadable => ([], [fcc.Path ++ " could not be read"])
  | .content bytes =>
    if bytes.take fcc.Content.length = fcc.Content then ([], [])
    else ([], [fcc.Path ++ " contents are not set to " ++ bytesToString fcc.Content])

/-- **C10**: `FileContentCheck.Check` compares only the first
`len(Content)` bytes: any readable file extending `Content` passes with
no findings, and an error is reported exactly when the file cannot be
opened, cannot be read, or its `len(Content)`-byte head differs from
`Content`. -/
theorem fileContentCheck_head_only (fcc : FileContentCheck)
    (rest bytes : List UInt8) :
    FileContentCheck.check fcc (FileAccess.content (fcc.Content ++ rest)) = ([], [])
    ∧ ((FileContentCheck.check fcc (FileAccess.content bytes)).2 ≠ []
        ↔ bytes.take fcc.Content.length ≠ fcc.Content)
    ∧ (FileContentCheck.check fcc FileAccess.noFile).2 ≠ []
    ∧ (FileContentCheck.check fcc FileAccess.unreadable).2 ≠ [] := by
  refine ⟨?_, ?_, by simp [FileContentCheck.check], by simp [FileContentCheck.check]⟩
  · simp [FileContentCheck.check, List.take_left]
  · by_cases h : bytes.take fcc.Content.length = fcc.Content <;>
      simp [FileContentCheck.check, h]

/-- Witness for C10: a file strictly extending the wanted content still
passes. -/
theorem fileContentCheck_head_only_witness :
    FileContentCheck.check ⟨"/f", [72, 73], ""⟩
      (FileAccess.content ([72, 73] ++ [74, 75])) = ([], []) :=
  (fileContentCheck_head_only ⟨"/f", [72, 73], ""⟩ [74, 75] []).1

/-! ### ImagePullCheck -/

/-- Container-runtime collaborator: `ImageExists` returns a present flag
and an optional error; `PullImage` returns an optional error. -/
structure ContainerRuntime where
  imageExists : String → Bool × Option String
  pullImage : String → Option String

/-- `v1.PullNever`. -/
def PullNever : String := "Never"

/-- `v1.PullIfNotPresent`. -/
def PullIfNotPresent : String := "IfNotPresent"

/-- `v1.PullAlways`. -/
def PullAlways : String := "Always"

/-- Go `%q` rendering of a plain string. -/
def quoteStr (s : String) : String := "\"" ++ s ++ "\""

/-- `errors.Wrapf(err, "failed to check if image %s exists", image)`. -/
def existsWrapErr (image e : String) : String :=
  "failed to check if image " ++ image ++ " exists: " ++ e

/-- `errors.Wrapf(err, "failed to pull image %s", image)`. -/
def pullWrapErr (image e : String) : String :=
  "failed to pull image " ++ image ++ ": " ++ e

/-- The `for`/`switch` loop of `ImagePullCheck.Check`, including the
`fallthrough` from `PullIfNotPresent` into `PullAlways` and the early
`return` of the `default` arm. Yields the accumulated `errorList`. -/
def imagePullLoop (rt : ContainerRuntime) (policy : String) : List String → List String
  | [] => []
  | image :: rest =>
    if policy = PullNever then imagePullLoop rt policy rest
    else if policy = PullIfNotPresent then
      let r := rt.imageExists image
      if r.1 && r.2.isNone then imagePullLoop rt policy rest
      else
        (match r.2 with | some e => [existsWrapErr image e] | none => []) ++
        (match rt.pullImage image with | some e => [pullWrapErr image e] | none => []) ++
        imagePullLoop rt policy rest
    else if policy = PullAlways then
      (match rt.pullImage image with | some e => [pullWrapErr image e] | none => []) ++
      imagePullLoop rt policy rest
    else ["unsupported pull policy " ++ quoteStr policy]

/-- `ImagePullCheck` struct. -/
structure ImagePullCheck where
  runtime : ContainerRuntime
  imageList : List String
  imagePullPolicy : String

/-- `ImagePullCheck.Check`: warnings are never produced. -/
def ImagePullCheck.check (ipc : ImagePullCheck) : List String × List String :=
  ([], imagePullLoop ipc.runtime ipc.imagePullPolicy ipc.imageList)

/-- Claim-side description of the errors one image contributes under a
recognized policy. -/
def imageFinding (rt : ContainerRuntime) (policy : String) (image : String) :
    List String :=
  if policy = PullNever then []
  else if policy = PullIfNotPresent then
    if (rt.imageExists image).1 && (rt.imageExists image).2.isNone then []
    else
      (match (rt.imageExists image).2 with
        | some e => [existsWrapErr image e] | none => []) ++
      (match rt.pullImage image with
        | some e => [pullWrapErr image e] | none => [])
  else
    (match rt.pullImage image with
      | some e => [pullWrapErr image e] | none => [])

/-- **C4**: `ImagePullCheck.Check` processes images in order: `Never`
skips with no error; `IfNotPresent` skips only a successfully-confirmed
present image, otherwise records the existence-query failure (if any) and
then attempts the pull, recording its failure; `Always` always pulls,
recording failures; an unrecognized policy stops immediately with exactly
one error. -/
theorem imagePullCheck_policy (ipc : ImagePullCheck)
    (hknown : ipc.imagePullPolicy = PullNever ∨ ipc.imagePullPolicy = PullIfNotPresent
      ∨ ipc.imagePullPolicy = PullAlways) :
    ImagePullCheck.check ipc =
      ([], ipc.imageList.flatMap (imageFinding ipc.runtime ipc.imagePullPolicy))
    ∧ (ipc.imagePullPolicy = PullNever → ImagePullCheck.check ipc = ([], []))
    ∧ ∀ policy : String, policy ≠ PullNever → policy ≠ PullIfNotPresent →
        policy ≠ PullAlways → ∀ image rest,
        imagePullLoop ipc.runtime policy (image :: rest) =
          ["unsupported pull policy " ++ quoteStr policy] := by
  have hloop : ∀ images, imagePullLoop ipc.runtime ipc.imagePullPolicy images =
      images.flatMap (imageFinding ipc.runtime ipc.imagePullPolicy) := by
    intro images
    induction images with
    | nil => rfl
    | cons image rest ih =>
      rcases hknown with h | h | h
      · rw [h] at ih ⊢
        simp only [PullNever, PullIfNotPresent, PullAlways] at ih ⊢
        simp [imagePullLoop, imageFinding, ih, PullNever, PullIfNotPresent, PullAlways]
      · rw [h] at ih ⊢
        simp only [PullNever, PullIfNotPresent, PullAlways] at ih ⊢
        by_cases hb : ((ipc.runtime.imageExists image).1 &&
            (ipc.runtime.imageExists image).2.isNone) = true
        · simp [imagePullLoop, imageFinding, ih, hb, PullNever, PullIfNotPresent, PullAlways]
        · simp [imagePullLoop, imageFinding, ih, hb, List.append_assoc, PullNever, PullIfNotPresent, PullAlways]
      · rw [h] at ih ⊢
        simp only [PullNever, PullIfNotPresent, PullAlways] at ih ⊢
        simp [imagePullLoop, imageFinding, ih, PullNever, PullIfNotPresent, PullAlways]
  refine ⟨?_, ?_, ?_⟩
  · show ([], imagePullLoop ipc.runtime ipc.imagePullPolicy ipc.imageList) = _
    rw [hloop]
  · intro h
    show ([], imagePullLoop ipc.runtime ipc.imagePullPolicy ipc.imageList) = ([], [])
    rw [hloop, h]
    have : ∀ images : List String,
        images.flatMap (imageFinding ipc.runtime PullNever) = [] := by
      intro images
      rw [List.flatMap_eq_nil_iff]
      intro i _
      simp [imageFinding]
    rw [this]
  · intro policy h1 h2 h3 image rest
    simp only [imagePullLoop, if_neg h1, if_neg h2, if_neg h3]

/-- Concrete runtime for the C4 witness: image `"a"` is present, `"b"` is
absent and its pull fails. -/
def rtW : ContainerRuntime :=
  ⟨fun i => if i = "a" then (true, none) else (false, none),
   fun i => if i = "b" then some "boom" else none⟩

/-- Witness for C4, spec Example 4: policy `IfNotPresent`, images
`["a","b"]`, `"a"` present, `"b"` absent and failing to pull — exactly one
error, for `"b"`'s pull; and an unknown policy yields its single error. -/
theorem imagePullCheck_policy_witness :
    ImagePullCheck.check ⟨rtW, ["a", "b"], PullIfNotPresent⟩ =
      ([], ["failed to pull image b: boom"])
    ∧ imagePullLoop rtW "Bogus" ["a", "b"] =
      ["unsupported pull policy \"Bogus\""] := by
  have h := imagePullCheck_policy ⟨rtW, ["a", "b"], PullIfNotPresent⟩
    (Or.inr (Or.inl rfl))
  constructor
  · rw [h.1]
    rfl
  · exact h.2.2 "Bogus" (by decide) (by decide) (by decide) "a" ["b"]

/-! ### KubernetesVersionCheck -/

/-- One semver pre-release identifier: numeric identifiers have lower
precedence than alphanumeric ones. -/
inductive PreId where
  | num (n : Nat)
  | str (s : String)
deriving DecidableEq

/-- Semver precedence on one pre-release identifier. -/
def PreId.comp : PreId → PreId → Ordering
  | .num n, .num m => compare n m
  | .num _, .str _ => .lt
  | .str _, .num _ => .gt
  | .str s, .str t => compare s t

/-- Semver precedence on equal-status pre-release identifier lists: a
shorter list that is a proper head of the other has lower precedence. -/
def compIds : List PreId → List PreId → Ordering
  | [], [] => .eq
  | [], _ :: _ => .lt
  | _ :: _, [] => .gt
  | a :: as, b :: bs =>
    match a.comp b with
    | .eq => compIds as bs
    | o => o

/-- Semver precedence on pre-release components: a release (empty list)
has higher precedence than any pre-release. -/
def compPre : List PreId → List PreId → Ordering
  | [], [] => .eq
  | [], _ :: _ => .gt
  | _ :: _, [] => .lt
  | as, bs => compIds as bs

/-- A parsed semantic version, as produced by the version-parser
collaborator (`k8s.io/apimachinery/pkg/util/version`). -/
structure Version where
  major : Nat
  minor : Nat
  patch : Nat
  pre : List PreId
deriving DecidableEq

/-- Semver precedence: numeric on major/minor/patch, then pre-release. -/
def Version.comp (v w : Version) : Ordering :=
  match compare v.major w.major with
  | .eq =>
    match compare v.minor w.minor with
    | .eq =>
      match compare v.patch w.patch with
      | .eq => compPre v.pre w.pre
      | o => o
    | o => o
  | o => o

/-- The collaborator's `AtLeast`: `v` is not lower than `w`. -/
def Version.atLeast (v w : Version) : Bool :=
  !(v.comp w == Ordering.lt)

/-- The boundary the code builds:
`versionutil.MustParseSemantic(fmt.Sprintf("%d.%d.%s", major, minor+1, "0-0"))`,
i.e. the very first pre-release of the next minor. -/
def firstUnsupportedVersion (kadm : Version) : Version :=
  ⟨kadm.major, kadm.minor + 1, 0, [PreId.num 0]⟩

/-- The boundary as the claim words it: `major.(minor+1).0` with no
pre-release. -/
def firstUnsupportedVersionClaim (kadm : Version) : Version :=
  ⟨kadm.major, kadm.minor + 1, 0, []⟩

/-- `KubernetesVersionCheck` struct. -/
structure KubernetesVersionCheck where
  KubeadmVersion : String
  KubernetesVersion : String

/-- `KubernetesVersionCheck.Check`, with the semantic-version parser as a
collaborator (`none` models a parse error). Note the skew finding is
returned in the first (warnings) component, as in the source. -/
def KubernetesVersionCheck.check (c : KubernetesVersionCheck)
    (parse : String → Option Version) : List String × List String :=
  if c.KubeadmVersion.startsWith "v0.0.0" then ([], [])
  else
    match parse c.KubeadmVersion with
    | none => ([], ["couldn't parse kubeadm version " ++ quoteStr c.KubeadmVersion])
    | some kadm =>
      match parse c.KubernetesVersion with
      | none => ([], ["couldn't parse Kubernetes version " ++ quoteStr c.KubernetesVersion])
      | some k8s =>
        if k8s.atLeast (firstUnsupportedVersion kadm) then
          (["Kubernetes version is greater than kubeadm version. Please consider to upgrade kubeadm. Kubernetes version: "
              ++ c.KubernetesVersion ++ ". Kubeadm version: " ++ toString kadm.major
              ++ "." ++ toString kadm.minor ++ ".x"], [])
        else ([], [])


theorem compIds_num0_not_lt (a : PreId) (as : List PreId) :
    compIds (a :: as) [PreId.num 0] ≠ Ordering.lt := by
  cases a with
  | num n =>
    cases n with
    | zero =>
      cases as <;> simp [compIds, PreId.comp, compare, compareOfLessAndEq]
    | succ m =>
      have hgt : compare (m + 1) 0 = Ordering.gt := Nat.compare_eq_gt.mpr (by omega)
      simp [compIds, PreId.comp, hgt]
  | str s => simp [compIds, PreId.comp]

theorem compPre_num0_not_lt (p : List PreId) : compPre p [PreId.num 0] ≠ Ordering.lt := by
  cases p with
  | nil => simp [compPre]
  | cons a as => exact compIds_num0_not_lt a as

theorem atLeast_iff_not_lt (v w : Version) :
    (Version.atLeast v w = true) ↔ Version.comp v w ≠ Ordering.lt := by
  rw [Version.atLeast]
  rcases h : Version.comp v w <;> decide

theorem atLeast_firstUnsupported_iff (kadm k8s : Version) :
    Version.atLeast k8s (firstUnsupportedVersion kadm) = true ↔
      (kadm.major < k8s.major ∨ (kadm.major = k8s.major ∧ kadm.minor < k8s.minor)) := by
  rw [atLeast_iff_not_lt, firstUnsupportedVersion, Version.comp]
  rcases Nat.lt_trichotomy k8s.major kadm.major with hM | hM | hM
  · rw [show compare k8s.major kadm.major = Ordering.lt from Nat.compare_eq_lt.mpr hM]
    show (Ordering.lt ≠ Ordering.lt) ↔ _
    exact ⟨fun hcontra => absurd rfl hcontra, fun hR => absurd hR (by omega)⟩
  · rw [show compare k8s.major kadm.major = Ordering.eq from Nat.compare_eq_eq.mpr hM]
    rcases Nat.lt_trichotomy k8s.minor (kadm.minor + 1) with hm | hm | hm
    · rw [show compare k8s.minor (kadm.minor + 1) = Ordering.lt from Nat.compare_eq_lt.mpr hm]
      show (Ordering.lt ≠ Ordering.lt) ↔ _
      exact ⟨fun hcontra => absurd rfl hcontra, fun hR => absurd hR (by omega)⟩
    · rw [show compare k8s.minor (kadm.minor + 1) = Ordering.eq from Nat.compare_eq_eq.mpr hm]
      rcases Nat.lt_trichotomy k8s.patch 0 with hp | hp | hp
      · exact absurd hp (by omega)
      · rw [show compare k8s.patch 0 = Ordering.eq from Nat.compare_eq_eq.mpr hp]
        show (compPre k8s.pre [PreId.num 0] ≠ Ordering.lt) ↔ _
        exact ⟨fun _ => Or.inr ⟨hM.symm, by omega⟩, fun _ => compPre_num0_not_lt k8s.pre⟩
      · rw [show compare k8s.patch 0 = Ordering.gt from Nat.compare_eq_gt.mpr hp]
        show (Ordering.gt ≠ Ordering.lt) ↔ _
        exact ⟨fun _ => Or.inr ⟨hM.symm, by omega⟩, fun _ => by decide⟩
    · rw [show compare k8s.minor (kadm.minor + 1) = Ordering.gt from Nat.compare_eq_gt.mpr hm]
      show (Ordering.gt ≠ Ordering.lt) ↔ _
      exact ⟨fun _ => Or.inr ⟨hM.symm, by omega⟩, fun _ => by decide⟩
  · rw [show compare k8s.major kadm.major = Ordering.gt from Nat.compare_eq_gt.mpr hM]
    show (Ordering.gt ≠ Ordering.lt) ↔ _
    exact ⟨fun _ => Or.inl hM, fun _ => by decide⟩

/-- Parser fixture used by the C5 counterexample and witness. -/
def parseW : String → Option Version
  | "1.2.3" => some ⟨1, 2, 3, []⟩
  | "1.3.0-alpha" => some ⟨1, 3, 0, [PreId.str "alpha"]⟩
  | "1.3.0" => some ⟨1, 3, 0, []⟩
  | "1.2.9" => some ⟨1, 2, 9, []⟩
  | _ => none

/-- **C5 counterexample**: with kubeadm `1.2.3` and cluster `1.3.0-alpha`,
the check declares failure (a finding is produced) although the cluster
version has *not* reached or passed `major.(minor+1).0` with no
pre-release — the claim's boundary version does not match the code's. -/
theorem versionSkew_boundary_counterexample :
    (KubernetesVersionCheck.check ⟨"1.2.3", "1.3.0-alpha"⟩ parseW ≠ ([], []))
    ∧ Version.atLeast ⟨1, 3, 0, [PreId.str "alpha"]⟩
        (firstUnsupportedVersionClaim ⟨1, 2, 3, []⟩) = false := by
  refine ⟨by decide, by decide⟩

/-- **C5 (amended)**: the dev-build sentinel (tool version with prefixed
`v0.0.0`) short-circuits with no findings; otherwise, with both versions
parsed, the check produces a finding exactly when the cluster version is
at least `major.(minor+1).0-0` — the minimal pre-release of the next
minor — equivalently when the cluster's `(major, minor)` pair
lexicographically exceeds the tool's, so any patch or pre-release within
the current minor passes and anything in the next minor or later
(pre-releases of it included) fails. -/
theorem versionSkew_check (c : KubernetesVersionCheck)
    (parse : String → Option Version) (kadm k8s : Version)
    (h1 : parse c.KubeadmVersion = some kadm)
    (h2 : parse c.KubernetesVersion = some k8s) :
    (c.KubeadmVersion.startsWith "v0.0.0" = true →
      KubernetesVersionCheck.check c parse = ([], []))
    ∧ (c.KubeadmVersion.startsWith "v0.0.0" = false →
      ((KubernetesVersionCheck.check c parse ≠ ([], [])) ↔
        Version.atLeast k8s (firstUnsupportedVersion kadm) = true))
    ∧ (Version.atLeast k8s (firstUnsupportedVersion kadm) = true ↔
        (kadm.major < k8s.major ∨ (kadm.major = k8s.major ∧ kadm.minor < k8s.minor))) := by
  refine ⟨fun hs => ?_, fun hs => ?_, atLeast_firstUnsupported_iff kadm k8s⟩
  · simp [KubernetesVersionCheck.check, hs]
  · by_cases hat : Version.atLeast k8s (firstUnsupportedVersion kadm) = true
    · simp [KubernetesVersionCheck.check, hs, h1, h2, hat]
    · have hf : Version.atLeast k8s (firstUnsupportedVersion kadm) = false :=
        Bool.eq_false_iff.mpr hat
      simp [KubernetesVersionCheck.check, hs, h1, h2, hf]

/-- Witness for C5: kubeadm `1.2.3` accepts cluster `1.2.9` (same minor,
higher patch) and rejects cluster `1.3.0` (next minor). -/
theorem versionSkew_check_witness :
    KubernetesVersionCheck.check ⟨"1.2.3", "1.2.9"⟩ parseW = ([], [])
    ∧ KubernetesVersionCheck.check ⟨"1.2.3", "1.3.0"⟩ parseW ≠ ([], []) := by
  constructor
  · have h := versionSkew_check ⟨"1.2.3", "1.2.9"⟩ parseW ⟨1, 2, 3, []⟩ ⟨1, 2, 9, []⟩ rfl rfl
    by_contra hne
    have hat := (h.2.1 (by decide)).mp hne
    rw [h.2.2] at hat
    rcases hat with h' | ⟨_, h'⟩ <;> exact absurd h' (by decide)
  · have h := versionSkew_check ⟨"1.2.3", "1.3.0"⟩ parseW ⟨1, 2, 3, []⟩ ⟨1, 3, 0, []⟩ rfl rfl
    exact (h.2.1 (by decide)).mpr (h.2.2.mpr (Or.inr ⟨rfl, by decide⟩))

end Preflight
